import Mathlib

/-!
Verification development for the `agent-multi-cr` review-orchestration
pipeline.  The definitions below are a shallow embedding of the Python
sources under `src/agent_multi_cr/` (`pipeline.py`, `llm_runners.py`,
`auditors.py`, `shell_utils.py`, `prompts.py`): pure Python string
manipulation is translated into executable Lean functions over `String`,
external collaborators (the `codex` / `gemini` CLI processes and the JSON
library) are abstracted as function parameters, and filesystem effects are
modelled by explicit state passing over a small filesystem record.
-/

namespace AgentMultiCr

/-! ## Python string primitives

Helpers mirroring the Python `str` methods used by the sources.  Text is
modelled as `\n`-separated Unicode strings; Python recognises a few extra
line terminators and whitespace code points that never occur in the data
handled here. -/

/-- Characters treated as whitespace by Python `str.strip()`. -/
def pyIsSpace (c : Char) : Bool :=
  c == ' ' || c == '\t' || c == '\n' || c == '\r' || c == '\x0b' || c == '\x0c'

/-- Python `str.strip()` on a list of characters. -/
def pyStripList (l : List Char) : List Char :=
  ((l.dropWhile pyIsSpace).reverse.dropWhile pyIsSpace).reverse

/-- Python `str.strip()` with no arguments. -/
def pyStrip (s : String) : String :=
  String.mk (pyStripList s.toList)

/-- Python `str.startswith(p)`. -/
def pyStartsWith (s p : String) : Bool :=
  p.toList.isPrefixOf s.toList

/-- Python `s.endswith("\n")`. -/
def pyEndsWithNL (s : String) : Bool :=
  s.toList.getLast? == some '\n'

/-- Python `s[n:]`. -/
def pyDropChars (s : String) (n : Nat) : String :=
  String.mk (s.toList.drop n)

/-- Python `a or b` specialised to strings (`b` if `a` is empty). -/
def pyOrStr (a b : String) : String :=
  if a = "" then b else a

/-- Helper for `pySplitlines`, accumulating the current line reversed. -/
def pySplitlinesAux : List Char → List Char → List (List Char)
  | [], [] => []
  | [], acc => [acc.reverse]
  | '\n' :: rest, acc => acc.reverse :: pySplitlinesAux rest []
  | c :: rest, acc => pySplitlinesAux rest (c :: acc)

/-- Python `str.splitlines()` for `\n`-terminated text (no trailing empty
line; Python additionally recognises `\r` and rarer terminators, which do
not occur in the text handled by this program). -/
def pySplitlines (s : String) : List String :=
  (pySplitlinesAux s.toList []).map String.mk

/-- Python `"\n".join(lines)`. -/
def joinNL : List String → String
  | [] => ""
  | [x] => x
  | x :: xs => x ++ "\n" ++ joinNL xs

/-! ## shell_utils.py

`run_shell` executes an external command with a timeout and a bounded
retry loop.  The subprocess collaborator is abstracted as a function from
the attempt index to the observed outcome of that attempt. -/

/-- Outcome of one `subprocess.run` attempt: either `subprocess.TimeoutExpired`
(with the partial output captured by the exception) or process exit with a
return code, stdout and stderr. -/
inductive ExecResult where
  | timeout (stdoutPart stderrPart : String)
  | exited (code : Int) (out err : String)
deriving DecidableEq

/-- Embeds `shell_utils.max_retries`: one initial attempt plus up to three
retries. -/
def max_retries : Nat := 3

/-- Embeds `shell_utils._resolve_timeout`: explicit parameter first, then the
`AGENT_MULTI_CR_SHELL_TIMEOUT_SEC` environment variable when it is non-empty
and parses as a float (`parseFloat` abstracts Python `float(...)`, `none`
modelling `ValueError`), then the 3600-second default. -/
def resolve_timeout (explicit : Option ℚ) (env : Option String)
    (parseFloat : String → Option ℚ) : ℚ :=
  match explicit with
  | some t => t
  | none =>
    match env with
    | some v =>
      if v ≠ "" then
        match parseFloat v with
        | some q => q
        | none => 3600
      else 3600
    | none => 3600

/-- Message of the `RuntimeError` raised on `subprocess.TimeoutExpired`
(`tstr` renders the resolved timeout, `cmdJ` is `' '.join(cmd)`). -/
def timeoutMsg (tstr cmdJ cwd so se : String) : String :=
  "Command timed out after " ++ tstr ++ " seconds: " ++ cmdJ ++
  "\ncwd: " ++ cwd ++ "\npartial stdout:\n" ++ so ++ "\npartial stderr:\n" ++ se

/-- The "after {max_retries + 1} attempts" fragment of the final failure
message. -/
def attemptsPhrase : String :=
  "after " ++ toString (max_retries + 1) ++ " attempts"

/-- Message of the `RuntimeError` raised after the last failed attempt. -/
def failMsg (code : Int) (cmdJ cwd out err : String) : String :=
  ("Command failed with exit code " ++ toString code ++ " ") ++ attemptsPhrase ++
  (": " ++ cmdJ ++ "\ncwd: " ++ cwd ++ "\nstdout:\n" ++ out ++ "\nstderr:\n" ++ err)

/-- Body of the `for attempt in range(max_retries + 1)` loop of `run_shell`:
`attempt` is the current attempt index and `fuel` the number of retries still
available.  Returns the overall result (`.error` models a raised
`RuntimeError`) together with the number of attempts performed. -/
def runShellGo (exec : Nat → ExecResult) (cmdJ cwd tstr : String) :
    Nat → Nat → Except String String × Nat
  | attempt, 0 =>
    match exec attempt with
    | .timeout so se => (.error (timeoutMsg tstr cmdJ cwd so se), attempt + 1)
    | .exited c out err =>
      if c = 0 then (.ok (pyStrip out), attempt + 1)
      else (.error (failMsg c cmdJ cwd out err), attempt + 1)
  | attempt, fuel + 1 =>
    match exec attempt with
    | .timeout so se => (.error (timeoutMsg tstr cmdJ cwd so se), attempt + 1)
    | .exited c out _err =>
      if c = 0 then (.ok (pyStrip out), attempt + 1)
      else runShellGo exec cmdJ cwd tstr (attempt + 1) fuel

/-- Embeds `shell_utils.run_shell`: run the command, returning the stripped
stdout of the first attempt exiting with code 0; a timeout raises immediately
with no retry; a non-zero exit is retried up to `max_retries` additional
times, after which the final failure is raised. -/
def run_shell (exec : Nat → ExecResult) (cmdJ cwd tstr : String) :
    Except String String × Nat :=
  runShellGo exec cmdJ cwd tstr 0 max_retries

/-! ## auditors.py

`extract_and_update_memo` scans a model response for `MEMO_JSON:` directive
lines and updates the auditor's memo.  The JSON library is abstracted as a
function `parseMemo` from the directive's JSON text to the extracted pair
`(obj.get("append", ""), bool(obj.get("overwrite", False)))`; `none` models
a `json.loads` failure. -/

/-- Embeds `auditors.MEMO_JSON_PREFIX`. -/
def MEMO_JSON_PREFIX : String := "MEMO_JSON:"

/-- Accumulator for the line scan of `extract_and_update_memo`: the memo so
far, the surviving (non-directive) lines in reverse order, and the number of
"Failed to parse MEMO_JSON" diagnostics written to stderr. -/
structure MemoScanState where
  memo : String
  cleanedRev : List String
  diags : Nat
deriving DecidableEq

/-- Embeds the directive-application body of `extract_and_update_memo`: a
parsed directive with non-empty `append` text either replaces the memo
(`overwrite`, or an empty current memo) or appends with a separating newline
when the memo is not newline-terminated; an unparseable directive leaves the
memo untouched and emits a diagnostic. -/
def applyMemoDirective (parseMemo : String → Option (String × Bool))
    (st : MemoScanState) (jsonPart : String) : MemoScanState :=
  match parseMemo jsonPart with
  | some (appendText, overwrite) =>
    if appendText ≠ "" then
      if overwrite ∨ st.memo = "" then { st with memo := appendText }
      else
        { st with memo :=
            st.memo ++ (if pyEndsWithNL st.memo then "" else "\n") ++ appendText }
    else st
  | none => { st with diags := st.diags + 1 }

/-- Embeds one iteration of the `for line in lines` loop of
`extract_and_update_memo`: a line whose stripped form starts with
`MEMO_JSON_PREFIX` is consumed as a directive, every other line is kept. -/
def memoScanLine (parseMemo : String → Option (String × Bool))
    (st : MemoScanState) (line : String) : MemoScanState :=
  let stripped := pyStrip line
  if pyStartsWith stripped MEMO_JSON_PREFIX then
    applyMemoDirective parseMemo st
      (pyStrip (pyDropChars stripped MEMO_JSON_PREFIX.length))
  else { st with cleanedRev := line :: st.cleanedRev }

/-- Embeds `auditors.extract_and_update_memo` (pure part; the `save_memo`
write-through fires exactly when the returned memo differs from
`currentMemo`).  Returns the cleaned visible output, the new memo text, and
the number of parse diagnostics. -/
def extract_and_update_memo (parseMemo : String → Option (String × Bool))
    (rawOutput currentMemo : String) : String × String × Nat :=
  let st := (pySplitlines rawOutput).foldl (memoScanLine parseMemo)
    ⟨currentMemo, [], 0⟩
  (pyStrip (joinNL st.cleanedRev.reverse), st.memo, st.diags)

/-! ## llm_runners.py — parse_arbiter_json

The arbiter's raw response is parsed best-effort.  `json.loads` is
abstracted as a function `jloads` into a small Python-value type; `none`
models a raised parse exception, `other` any parsed non-dict value. -/

/-- Python values relevant to `parse_arbiter_json`: a JSON object (dict), a
string, or any other non-dict value. -/
inductive PyVal where
  | dict : List (String × PyVal) → PyVal
  | str : String → PyVal
  | other : PyVal

/-- The tier-3 fallback of `parse_arbiter_json`: treat the entire (stripped)
raw text as the final markdown. -/
def fallbackFinal (t : String) : PyVal :=
  .dict [("state", .str "final"), ("final_markdown", .str t)]

/-- Embeds the bracket scan of `parse_arbiter_json`: `raw.find("{")`,
`raw.rfind("}")` and the slice `raw[start : end + 1]`, provided both
brackets are found with the closing one strictly after the opening one. -/
def bracketCandidate (t : String) : Option String :=
  let cs := t.toList
  match cs.findIdx? (fun c => c == '\x7b'), cs.reverse.findIdx? (fun c => c == '\x7d') with
  | some s, some k =>
    let e := cs.length - 1 - k
    if s < e then some (String.mk ((cs.drop s).take (e + 1 - s))) else none
  | _, _ => none

/-- Embeds `llm_runners.parse_arbiter_json`: strip the raw text, try parsing
the whole string; if that fails or yields a non-dict, try the first-`{` to
last-`}` substring; if that also fails or yields a non-dict, fall back to a
final control object carrying the stripped raw text. -/
def parse_arbiter_json (jloads : String → Option PyVal) (raw0 : String) : PyVal :=
  let raw := pyStrip raw0
  match jloads raw with
  | some (.dict d) => .dict d
  | _ =>
    match bracketCandidate raw with
    | some candidate =>
      match jloads candidate with
      | some (.dict d) => .dict d
      | _ => fallbackFinal raw
    | none => fallbackFinal raw

/-! ## llm_runners.py — review tasks, and the concurrent round

`run_auditor_initial_review` dispatches on the auditor kind and calls the
external CLI; the whole dispatch-and-call block is wrapped in
`try/except Exception`, converting any raised error (timeouts, exhausted
retries, unknown kind) into a placeholder review text.  The external call is
abstracted as its outcome `invoke` (`.err` models a raised exception such as
the `RuntimeError` from `run_shell`).  The concurrent round
(`ThreadPoolExecutor` + `as_completed` in `run_pipeline`) is modelled by
`gatherRound` over the task outcomes in completion order. -/

/-- Outcome of the external CLI call made inside a review task. -/
inductive InvokeResult where
  | ok (raw : String)
  | err (msg : String)
deriving DecidableEq

/-- The placeholder text returned when the initial-review call raises. -/
def reviewFailedText (e : String) : String :=
  "## Review Failed\n\nAuditor encountered an error: " ++ e

/-- Embeds `llm_runners.run_auditor_initial_review` (state passing over the
memo; prompt construction elided).  The `Except` layer models exception
propagation to the caller: the function never propagates, because the
`except Exception` handler converts a raised invocation error into a
"## Review Failed" review returned together with the unchanged memo. -/
def run_auditor_initial_review (parseMemo : String → Option (String × Bool))
    (kind : String) (invoke : InvokeResult) (memoBefore : String) :
    Except String (String × String) :=
  match
    (if kind = "codex" ∨ kind = "gemini" then invoke
     else .err ("Unknown auditor kind: " ++ kind)) with
  | .err e => .ok (reviewFailedText e, memoBefore)
  | .ok raw =>
    let r := extract_and_update_memo parseMemo raw memoBefore
    .ok (r.1, r.2.1)

/-- Embeds the fan-in loop of a concurrent review round: task outcomes are
consumed in completion order, the first failure is re-raised to the caller
aborting the round, and the round completes only when every task has
produced a result. -/
def gatherRound {α : Type} : List (Except String α) → Except String (List α)
  | [] => .ok []
  | .error e :: _ => .error e
  | .ok a :: rest =>
    match gatherRound rest with
    | .ok tl => .ok (a :: tl)
    | .error e => .error e

/-! ## Call compatibility between pipeline.py and llm_runners.py

The peer-round and arbiter-step calls in `run_pipeline` pass keyword
arguments only.  Python binds a keyword-only call successfully iff every
parameter without a default receives a keyword and no keyword is unknown;
otherwise the call raises `TypeError`.  The parameter lists below are
transcribed from the `def` headers in `llm_runners.py` and the call sites in
`pipeline.py`. -/

/-- A Python function signature: its named parameters in order, and the
subset of parameters that carry a default value. -/
structure PyFuncSig where
  params : List String
  hasDefault : List String
deriving DecidableEq

/-- Parameters that must be bound for a call to succeed. -/
def requiredParams (f : PyFuncSig) : List String :=
  f.params.filter (fun p => !f.hasDefault.contains p)

/-- Required parameters not supplied by a keyword-only call. -/
def missingRequired (f : PyFuncSig) (kwargs : List String) : List String :=
  (requiredParams f).filter (fun p => !kwargs.contains p)

/-- Keywords supplied by the call that the function does not declare. -/
def unexpectedKwargs (f : PyFuncSig) (kwargs : List String) : List String :=
  kwargs.filter (fun k => !f.params.contains k)

/-- Whether a keyword-only Python call binds without raising `TypeError`. -/
def kwargsCallBinds (f : PyFuncSig) (kwargs : List String) : Bool :=
  (missingRequired f kwargs).isEmpty && (unexpectedKwargs f kwargs).isEmpty

/-- Signature of `llm_runners.run_reviewer_peer_round` (only `verbose` has a
default). -/
def run_reviewer_peer_round_sig : PyFuncSig :=
  ⟨["auditor", "task_description", "context_text", "own_review",
    "other_reviews_block", "round_index", "max_rounds", "verbose"],
   ["verbose"]⟩

/-- Keywords passed by `run_pipeline` when submitting the peer cross-check
task (`executor.submit(run_reviewer_peer_round, ...)`). -/
def peer_round_call_kwargs : List String :=
  ["auditor", "task_description", "context_text", "own_review",
   "other_reviews_block", "verbose"]

/-- Signature of `llm_runners.run_arbiter_step` (`include_p2_p3`,
`allow_queries` and `verbose` have defaults). -/
def run_arbiter_step_sig : PyFuncSig :=
  ⟨["arbiter", "task_description", "context_text", "auditors",
    "initial_reviews", "qa_history", "max_queries", "query_count",
    "include_p2_p3", "allow_queries", "verbose"],
   ["include_p2_p3", "allow_queries", "verbose"]⟩

/-- Keywords passed by `run_pipeline._call_arbiter_step` to
`run_arbiter_step`. -/
def arbiter_step_call_kwargs : List String :=
  ["arbiter", "task_description", "context_text", "auditors",
   "initial_reviews", "latest_reviews", "qa_history", "max_queries",
   "query_count", "include_p2_p3", "allow_queries", "verbose"]

/-! ## pipeline.py — the arbiter phase

The arbiter loop of `run_pipeline` (multi-round mode) and its single-shot
branch.  One arbiter invocation is abstracted as an oracle from the
invocation index to the parsed control object; a follow-up answer from a
reviewer is abstracted as a function of the query index.  The control dict
is modelled with `Option` fields mirroring `dict.get`, plus the `str(...)`
rendering used by the error reports. -/

/-- A parsed arbiter control object (`dict.get` on absent keys yields
`none`); `repr` models Python `str(control)`. -/
structure Control where
  state : Option String
  final_markdown : Option String
  target_reviewer : Option String
  question : Option String
  repr : String
deriving DecidableEq

/-- One entry of the QA history. -/
structure QAEntry where
  reviewer : String
  question : String
  answer : String
deriving DecidableEq

/-- One arbiter invocation as issued by `_call_arbiter_step`. -/
structure ArbCall where
  allow_queries_flag : Bool
  query_index : Nat
  max_queries_for_call : Nat
deriving DecidableEq

/-- Python `control.get("final_markdown", "")`. -/
def getFM (c : Control) : String := c.final_markdown.getD ""

/-- Python `control.get("question", "").strip()`. -/
def getQuestion (c : Control) : String := pyStrip (c.question.getD "")

/-- Python `control.get("target_reviewer")` collapsed to its truthiness:
both an absent key and an empty string are falsy. -/
def getTarget (c : Control) : String := c.target_reviewer.getD ""

/-- The final markdown produced when the arbiter names an unknown
reviewer. -/
def unknownReviewerMsg (target rep : String) : String :=
  "Arbiter referred to unknown reviewer " ++ target ++ ". Raw control: " ++ rep

/-- The error report produced when a single-shot arbiter response is not
Final. -/
def singleShotErrMsg (rep : String) : String :=
  "## Arbiter Error\n\n" ++
  ("Arbiter attempted to ask follow-up questions in single-shot mode.\n\n" ++
   "Raw control object:\n\n" ++ rep)

/-- The error report produced when the post-budget forced response is not
Final. -/
def budgetErrMsg (rep : String) : String :=
  "## Arbiter Error\n\n" ++
  ("Arbiter attempted to ask additional questions after reaching the " ++
   "configured max_queries limit.\n\n" ++ "Raw control object:\n\n" ++ rep)

/-- The mutable state of the arbiter loop: `query_count`, the number of
arbiter invocations made so far, the QA history, and the trace of issued
invocations. -/
structure LoopState where
  q : Nat
  i : Nat
  qa : List QAEntry
  calls : List ArbCall
deriving DecidableEq

/-- Embeds the `while query_count < max_queries` loop of `run_pipeline`
(multi-round branch).  `fuel` is `maxQ - q`; each iteration invokes the
arbiter with queries allowed, then either terminates with a final markdown
(`some fm`) or records one answered query and continues.  Returning `none`
means the budget was exhausted without a Final. -/
def arbiterLoopGo (oracle : Nat → Control) (answers : Nat → String)
    (roster : List String) (maxQ : Nat) :
    Nat → LoopState → LoopState × Option String
  | 0, s => (s, none)
  | fuel + 1, s =>
    let c := oracle s.i
    let s1 : LoopState :=
      { s with i := s.i + 1, calls := s.calls ++ [⟨true, s.q, maxQ⟩] }
    if c.state = some "final" then
      (s1, some (pyStrip (getFM c)))
    else if c.state = some "query" then
      let target := getTarget c
      let ques := getQuestion c
      if target = "" ∨ ques = "" then
        (s1, some (pyOrStr (getFM c) c.repr))
      else if target ∈ roster then
        arbiterLoopGo oracle answers roster maxQ fuel
          { s1 with q := s1.q + 1, qa := s1.qa ++ [⟨target, ques, answers s.q⟩] }
      else
        (s1, some (unknownReviewerMsg target c.repr))
    else
      (s1, some (pyOrStr (getFM c) c.repr))

/-- Embeds the post-loop forced invocation handling (`final_control` in
`run_pipeline`): a Final response yields its markdown (or `str(control)` if
empty), anything else is converted into an error report. -/
def forced_final_call (c : Control) : String :=
  if c.state = some "final" then pyOrStr (getFM c) c.repr
  else budgetErrMsg c.repr

/-- Result of the whole multi-round arbiter phase. -/
structure ArbPhaseOut where
  fm : String
  st : LoopState
  forced : Bool
deriving DecidableEq

/-- Embeds the multi-round arbiter branch of `run_pipeline`: run the bounded
loop; if it ends without a final markdown, invoke the arbiter exactly once
more with queries disallowed and convert a non-Final response into an error
report. -/
def arbiter_phase_multi (oracle : Nat → Control) (answers : Nat → String)
    (roster : List String) (maxQ : Nat) : ArbPhaseOut :=
  match arbiterLoopGo oracle answers roster maxQ maxQ ⟨0, 0, [], []⟩ with
  | (s, some fm) => ⟨fm, s, false⟩
  | (s, none) =>
    ⟨forced_final_call (oracle s.i),
     { s with i := s.i + 1, calls := s.calls ++ [⟨false, maxQ, maxQ⟩] },
     true⟩

/-- Embeds the single-shot arbiter branch of `run_pipeline`: exactly one
invocation with queries disallowed; a non-Final response is converted into
an error report. -/
def arbiter_phase_single (oracle : Nat → Control) : String × List ArbCall :=
  let c := oracle 0
  (if c.state = some "final" then pyStrip (getFM c) else singleShotErrMsg c.repr,
   [⟨false, 0, 0⟩])

/-! ## pipeline.py — workdir boundary check and marker-gated cleanup

Filesystem state is modelled as the sets of existing directories and files
(as absolute path strings with `/` as separator, matching `os.sep` on the
POSIX hosts this tool targets); `os.path.realpath` resolution is modelled by
taking the already-resolved path as input. -/

/-- Embeds `pipeline.WORKDIR_MARKER`. -/
def WORKDIR_MARKER : String := ".agent_multi_cr_workspace"

/-- A snapshot of the filesystem: existing directories and files. -/
structure FS where
  dirs : List String
  files : List String
deriving DecidableEq

/-- Python `os.path.isdir`. -/
def isDir (fs : FS) (p : String) : Bool := fs.dirs.contains p

/-- Python `os.path.exists` restricted to the regular files of the model. -/
def fileExists (fs : FS) (p : String) : Bool := fs.files.contains p

/-- Whether path `p` is `root` itself or lies strictly underneath it. -/
def underOrEq (p root : String) : Bool :=
  p == root || pyStartsWith p (root ++ "/")

/-- Python `shutil.rmtree(p)` on the model: removes `p` and everything
underneath it. -/
def rmtree (fs : FS) (p : String) : FS :=
  ⟨fs.dirs.filter (fun d => !underOrEq d p),
   fs.files.filter (fun f => !underOrEq f p)⟩

/-- Python `os.makedirs(p, exist_ok=True)` on the model. -/
def mkdirP (fs : FS) (p : String) : FS :=
  if isDir fs p then fs else ⟨p :: fs.dirs, fs.files⟩

/-- Creating a file on the model (used for the marker write). -/
def writeFile (fs : FS) (p : String) : FS :=
  if fileExists fs p then fs else ⟨fs.dirs, p :: fs.files⟩

/-- Marker file path inside a run workdir. -/
def markerPath (runDir : String) : String := runDir ++ "/" ++ WORKDIR_MARKER

/-- Embeds `pipeline._cleanup_run_workdir`: removes any git worktrees rooted
under the path and then the tree itself; on the filesystem model both
amount to removing the subtree.  Failures are logged, never raised. -/
def cleanup_run_workdir (fs : FS) (p : String) : FS := rmtree fs p

/-- What the end-of-run cleanup did. -/
inductive CleanupAction where
  | removed
  | leftInPlaceWarned
  | skippedNoDir
deriving DecidableEq

/-- Embeds the end-of-run cleanup block of `run_pipeline` ("Cleaning
auditors workdir for this run"): the run directory is removed only when its
marker file exists; a missing marker leaves the directory in place with a
warning.  The `Except` layer models a raised `SystemExit`: this block never
raises. -/
def end_of_run_cleanup (fs : FS) (runDir : String) :
    Except String (FS × CleanupAction) :=
  if isDir fs runDir then
    if fileExists fs (markerPath runDir) then
      .ok (cleanup_run_workdir fs runDir, .removed)
    else
      .ok (fs, .leftInPlaceWarned)
  else
    .ok (fs, .skippedNoDir)

/-- Embeds the per-path body of `pipeline._atexit_cleanup_run_workdirs`: the
registered run directory is cleaned only when it still exists and carries
the marker file; otherwise the filesystem is untouched (and nothing is
raised). -/
def atexit_cleanup_one (fs : FS) (runDir : String) : FS :=
  if isDir fs runDir ∧ fileExists fs (markerPath runDir) then
    cleanup_run_workdir fs runDir
  else fs

/-- Embeds the boundary condition of `run_pipeline`: the resolved auditors
workdir root must lie strictly inside the resolved repo root. -/
def boundary_violation (candidate repoRootReal : String) : Bool :=
  candidate == repoRootReal || !pyStartsWith candidate (repoRootReal ++ "/")

/-- The `SystemExit` message for a workdir root outside the repo root. -/
def boundaryErrMsg (repoRootReal baseWorkdir : String) : String :=
  "--auditors-workdir must point to a directory inside the repo root (" ++
  repoRootReal ++ "), not '" ++ baseWorkdir ++ "'. Refusing to delete it."

/-- The `SystemExit` message for a pre-existing run workdir lacking the
marker file. -/
def refuseMarkerMsg (runDir : String) : String :=
  "Refusing to delete existing auditors workdir '" ++ runDir ++
  "' because it does not contain the expected marker file '" ++
  WORKDIR_MARKER ++
  "'. Please choose a different path or remove it manually if you are sure it is safe."

/-- Embeds the workdir setup prefix of `run_pipeline` (boundary validation,
root creation, pre-run marker-gated cleanup of a leftover run directory,
then creation of the run directory and its marker).  `candidate` is the
realpath-resolved auditors workdir root (`base_workdir_abs`), `baseArg`
the raw `--auditors-workdir` argument and `runDir` the per-run
subdirectory.  The returned filesystem is the state at the moment the
function returns or raises (`.error` models `SystemExit`). -/
def pipeline_setup (fs0 : FS) (candidate repoRootReal baseArg runDir : String) :
    FS × Except String Unit :=
  if boundary_violation candidate repoRootReal then
    (fs0, .error (boundaryErrMsg repoRootReal baseArg))
  else
    let fs1 := mkdirP fs0 candidate
    if isDir fs1 runDir ∧ !fileExists fs1 (markerPath runDir) then
      (fs1, .error (refuseMarkerMsg runDir))
    else
      let fs2 := if isDir fs1 runDir then cleanup_run_workdir fs1 runDir else fs1
      let fs3 := mkdirP fs2 runDir
      (writeFile fs3 (markerPath runDir), .ok ())

/-! ## pipeline.py — reviewer roster when Codex acts as arbiter

When `arbiter_family == "codex"`, the pipeline reserves the
`gpt-5.1-codex|low` Codex configuration for the dedicated arbiter and drops
it from the reviewer configurations with a stderr diagnostic. -/

/-- The Codex configuration reserved for the dedicated Codex arbiter
(`(model_name, effort)`). -/
def reservedCodexArbConfig : String × String := ("gpt-5.1-codex", "low")

/-- Embeds the reviewer-configuration filter of `run_pipeline`: when the
arbiter family is "codex", every `(model_name, effort)` equal to
`("gpt-5.1-codex", "low")` is skipped (with one diagnostic each); for other
families the configurations pass through unchanged.  Returns the kept
configurations and the number of diagnostics emitted. -/
def codex_reviewer_configs (arbiter_family : String)
    (codex_configs : List (String × String)) : List (String × String) × Nat :=
  if arbiter_family = "codex" then
    (codex_configs.filter
       (fun cfg => !(cfg.1 == "gpt-5.1-codex" && cfg.2 == "low")),
     (codex_configs.filter
       (fun cfg => cfg.1 == "gpt-5.1-codex" && cfg.2 == "low")).length)
  else (codex_configs, 0)

/-! ## Theorems -/

/-- C7: every external agent invocation is bounded by a timeout (default
3600 seconds, overridable by an explicit value), a timeout raises
immediately after a single attempt with no retry, a non-timeout failure is
retried up to 3 additional times with the output of a successful fourth
attempt returned, and exhausting all 4 attempts raises an error whose
message states that 4 attempts were made. -/
theorem c7_shell_timeout_and_retry
    (parseFloat : String → Option ℚ) (env : Option String) (t : ℚ)
    (exec : Nat → ExecResult) (cmdJ cwd tstr out err so se : String)
    (codes : Nat → Int) (outs errs : Nat → String) :
    resolve_timeout none none parseFloat = 3600 ∧
    resolve_timeout (some t) env parseFloat = t ∧
    (exec 0 = .timeout so se →
      run_shell exec cmdJ cwd tstr = (.error (timeoutMsg tstr cmdJ cwd so se), 1)) ∧
    ((∀ k, k < 3 → exec k = .exited (codes k) (outs k) (errs k) ∧ codes k ≠ 0) →
      exec 3 = .exited 0 out err →
      run_shell exec cmdJ cwd tstr = (.ok (pyStrip out), 4)) ∧
    ((∀ k, k < 4 → exec k = .exited (codes k) (outs k) (errs k) ∧ codes k ≠ 0) →
      run_shell exec cmdJ cwd tstr =
        (.error (failMsg (codes 3) cmdJ cwd (outs 3) (errs 3)), 4)) ∧
    (∀ c o e, ∃ pre post, failMsg c cmdJ cwd o e = pre ++ "after 4 attempts" ++ post) := by
  refine ⟨rfl, rfl, ?_, ?_, ?_, ?_⟩
  · intro h
    simp [run_shell, runShellGo, max_retries, h]
  · intro hk h3
    have h0 := hk 0 (by omega)
    have h1 := hk 1 (by omega)
    have h2 := hk 2 (by omega)
    simp [run_shell, runShellGo, max_retries, h0.1, h0.2, h1.1, h1.2, h2.1, h2.2, h3]
  · intro hk
    have h0 := hk 0 (by omega)
    have h1 := hk 1 (by omega)
    have h2 := hk 2 (by omega)
    have h3 := hk 3 (by omega)
    simp [run_shell, runShellGo, max_retries, h0.1, h0.2, h1.1, h1.2, h2.1, h2.2,
      h3.1, h3.2]
  · intro c o e
    refine ⟨"Command failed with exit code " ++ toString c ++ " ",
      ": " ++ cmdJ ++ "\ncwd: " ++ cwd ++ "\nstdout:\n" ++ o ++ "\nstderr:\n" ++ e, ?_⟩
    unfold failMsg
    rw [show attemptsPhrase = "after 4 attempts" from by decide]

/-- Witness for C7 at concrete executions: three non-zero exits followed by
a success return the fourth attempt's output after 4 attempts, and a
first-attempt timeout raises after exactly 1 attempt. -/
theorem c7_shell_timeout_and_retry_witness :
    run_shell (fun k => if k < 3 then .exited 1 "f" "e" else .exited 0 "ok" "")
      "codex" "/w" "3600.0" = (.ok (pyStrip "ok"), 4) ∧
    run_shell (fun _ => .timeout "po" "pe") "codex" "/w" "3600.0" =
      (.error (timeoutMsg "3600.0" "codex" "/w" "po" "pe"), 1) := by
  constructor
  · exact (c7_shell_timeout_and_retry (fun _ => none) none 0
      (fun k => if k < 3 then .exited 1 "f" "e" else .exited 0 "ok" "")
      "codex" "/w" "3600.0" "ok" "" "" ""
      (fun _ => 1) (fun _ => "f") (fun _ => "e")).2.2.2.1
      (by intro k hk; refine ⟨by simp [hk], by decide⟩)
      (by norm_num)
  · exact (c7_shell_timeout_and_retry (fun _ => none) none 0
      (fun _ => .timeout "po" "pe") "codex" "/w" "3600.0" "" "" "po" "pe"
      (fun _ => 1) (fun _ => "") (fun _ => "")).2.2.1 rfl

/-- Scanning lines none of which is a memo directive keeps the memo and the
diagnostics counter unchanged and retains every line. -/
theorem memoScan_nonDirective (parseMemo : String → Option (String × Bool)) :
    ∀ (ls : List String) (st : MemoScanState),
      (∀ l ∈ ls, pyStartsWith (pyStrip l) MEMO_JSON_PREFIX = false) →
      ls.foldl (memoScanLine parseMemo) st =
        ⟨st.memo, ls.reverse ++ st.cleanedRev, st.diags⟩
  | [], st, _ => by simp
  | l :: ls, st, h => by
    have hl : pyStartsWith (pyStrip l) MEMO_JSON_PREFIX = false :=
      h l (List.mem_cons_self l ls)
    have ih := memoScan_nonDirective parseMemo ls
      { st with cleanedRev := l :: st.cleanedRev }
      (fun x hx => h x (List.mem_cons_of_mem l hx))
    simp only [List.foldl_cons, memoScanLine, hl, Bool.false_eq_true, if_false, ih,
      List.reverse_cons]
    simp

/-- C8 (amended): after a successful call whose response ends in a single
trailing memo directive, a parseable directive with non-empty append text T
updates the memo (overwrite yields T; append yields M + "\n" + T when M is
non-empty and not newline-terminated, else M + T) and the directive line is
stripped from the visible text; a parseable directive with empty T leaves
the memo untouched (the line is still stripped); an unparseable directive
leaves the memo untouched, still strips the line, and emits one diagnostic. -/
theorem c8_memo_directive_semantics
    (parseMemo : String → Option (String × Bool))
    (bodyLines : List String) (dline raw M : String)
    (hsplit : pySplitlines raw = bodyLines ++ [dline])
    (hbody : ∀ l ∈ bodyLines, pyStartsWith (pyStrip l) MEMO_JSON_PREFIX = false)
    (hdir : pyStartsWith (pyStrip dline) MEMO_JSON_PREFIX = true) :
    extract_and_update_memo parseMemo raw M =
      (pyStrip (joinNL bodyLines),
       match parseMemo (pyStrip (pyDropChars (pyStrip dline) MEMO_JSON_PREFIX.length)) with
       | some (T, ow) =>
         if T ≠ "" then
           if ow ∨ M = "" then T
           else M ++ (if pyEndsWithNL M then "" else "\n") ++ T
         else M
       | none => M,
       match parseMemo (pyStrip (pyDropChars (pyStrip dline) MEMO_JSON_PREFIX.length)) with
       | some _ => 0
       | none => 1) := by
  unfold extract_and_update_memo
  rw [hsplit, List.foldl_append,
    memoScan_nonDirective parseMemo bodyLines ⟨M, [], 0⟩ hbody]
  simp only [List.foldl_cons, List.foldl_nil, memoScanLine, hdir, if_true]
  unfold applyMemoDirective
  cases hp : parseMemo (pyStrip (pyDropChars (pyStrip dline) MEMO_JSON_PREFIX.length)) with
  | none => simp
  | some p =>
    obtain ⟨T, ow⟩ := p
    by_cases hT : T = ""
    · simp [hT]
    · by_cases how : ow ∨ M = ""
      · simp [hT, how]
      · simp [hT, how]

/-- Witness for C8 at a concrete response: a trailing directive appending
"note2" to the non-newline-terminated memo "note1" produces "note1\nnote2",
and the directive line disappears from the visible text. -/
theorem c8_memo_directive_semantics_witness :
    extract_and_update_memo
      (fun s => if s = "JSONOBJ" then some ("note2", false) else none)
      "Something\nMEMO_JSON: JSONOBJ" "note1" = ("Something", "note1\nnote2", 0) := by
  have h := c8_memo_directive_semantics
    (fun s => if s = "JSONOBJ" then some ("note2", false) else none)
    ["Something"] "MEMO_JSON: JSONOBJ" "Something\nMEMO_JSON: JSONOBJ" "note1"
    (by decide) (by decide) (by decide)
  rw [h]
  decide

/-- C8 (counterexample): a parseable trailing directive whose append text is
empty with overwrite = true leaves the memo "x" unchanged, while the claim
as stated requires the memo to become exactly the directive text "". -/
theorem c8_empty_append_counterexample :
    extract_and_update_memo
      (fun s => if s = "\x7b\"append\": \"\", \"overwrite\": true\x7d"
        then some ("", true) else none)
      "Line\nMEMO_JSON: \x7b\"append\": \"\", \"overwrite\": true\x7d" "x" =
      ("Line", "x", 0) ∧ ("x" : String) ≠ "" := by
  constructor
  · decide
  · decide

/-- C9: parsing a raw arbiter response follows exactly the three-tier chain
(whole-text JSON parse, then first-`{`-to-last-`}` substring parse, then a
Final control object carrying the raw text), is total, and on an
already-stripped response the fallback's final_markdown is the raw text
verbatim. -/
theorem c9_parse_arbiter_three_tier (jloads : String → Option PyVal) (raw : String) :
    (∀ d, jloads (pyStrip raw) = some (.dict d) →
      parse_arbiter_json jloads raw = .dict d) ∧
    ((∀ d, jloads (pyStrip raw) ≠ some (.dict d)) →
      ∀ c d, bracketCandidate (pyStrip raw) = some c → jloads c = some (.dict d) →
        parse_arbiter_json jloads raw = .dict d) ∧
    ((∀ d, jloads (pyStrip raw) ≠ some (.dict d)) →
      (∀ c, bracketCandidate (pyStrip raw) = some c →
        ∀ d, jloads c ≠ some (.dict d)) →
      parse_arbiter_json jloads raw = fallbackFinal (pyStrip raw)) ∧
    (pyStrip raw = raw →
      fallbackFinal (pyStrip raw) =
        .dict [("state", .str "final"), ("final_markdown", .str raw)]) := by
  refine ⟨?_, ?_, ?_, ?_⟩
  · intro d h
    simp [parse_arbiter_json, h]
  · intro h1 c d hc hd
    unfold parse_arbiter_json
    cases hw : jloads (pyStrip raw) with
    | none => simp [hw, hc, hd]
    | some v =>
      cases v with
      | dict d0 => exact absurd hw (h1 d0)
      | str s => simp [hw, hc, hd]
      | other => simp [hw, hc, hd]
  · intro h1 h2
    unfold parse_arbiter_json
    cases hw : jloads (pyStrip raw) with
    | none =>
      cases hc : bracketCandidate (pyStrip raw) with
      | none => simp [hw, hc]
      | some c =>
        cases hd : jloads c with
        | none => simp [hw, hc, hd]
        | some v =>
          cases v with
          | dict d0 => exact absurd hd (h2 c hc d0)
          | str s => simp [hw, hc, hd]
          | other => simp [hw, hc, hd]
    | some v =>
      cases v with
      | dict d0 => exact absurd hw (h1 d0)
      | str s =>
        cases hc : bracketCandidate (pyStrip raw) with
        | none => simp [hw, hc]
        | some c =>
          cases hd : jloads c with
          | none => simp [hw, hc, hd]
          | some w =>
            cases w with
            | dict d0 => exact absurd hd (h2 c hc d0)
            | str s2 => simp [hw, hc, hd]
            | other => simp [hw, hc, hd]
      | other =>
        cases hc : bracketCandidate (pyStrip raw) with
        | none => simp [hw, hc]
        | some c =>
          cases hd : jloads c with
          | none => simp [hw, hc, hd]
          | some w =>
            cases w with
            | dict d0 => exact absurd hd (h2 c hc d0)
            | str s2 => simp [hw, hc, hd]
            | other => simp [hw, hc, hd]
  · intro h
    rw [h]
    rfl

/-- Witness for C9: a response that is not JSON at all degrades to a Final
control object carrying the text verbatim. -/
theorem c9_parse_arbiter_three_tier_witness :
    parse_arbiter_json (fun _ => none) "not json at all" =
      .dict [("state", .str "final"), ("final_markdown", .str "not json at all")] := by
  have h := (c9_parse_arbiter_three_tier (fun _ => none) "not json at all").2.2.1
    (fun d hd => Option.noConfusion hd)
    (fun c _ d hd => Option.noConfusion hd)
  rw [h, (c9_parse_arbiter_three_tier (fun _ => none) "not json at all").2.2.2 (by decide)]

/-- C4 (amended): in a concurrent review round the first task failure aborts
the round and is re-raised to the caller, and a round whose tasks all
succeed completes with every result; however, an external agent call that
fails (retries exhausted, or timed out) inside the initial-review task is
caught there and converted into a "## Review Failed" review returned as a
successful task result, so such invocation failures never propagate out of
the round. -/
theorem c4_round_failure_policy {α : Type}
    (parseMemo : String → Option (String × Bool))
    (kind : String) (invoke : InvokeResult) (memo e : String)
    (pre post : List α) (results : List α) :
    gatherRound (pre.map .ok ++ .error e :: post.map .ok) = .error e ∧
    gatherRound (results.map .ok) = .ok results ∧
    ((kind = "codex" ∨ kind = "gemini") →
      run_auditor_initial_review parseMemo kind (.err e) memo =
        .ok (reviewFailedText e, memo)) ∧
    (∃ v, run_auditor_initial_review parseMemo kind invoke memo = .ok v) := by
  refine ⟨?_, ?_, ?_, ?_⟩
  · induction pre with
    | nil => rfl
    | cons a tl ih => simp [gatherRound, ih]
  · induction results with
    | nil => rfl
    | cons a tl ih => simp [gatherRound, ih]
  · intro hk
    have : (if kind = "codex" ∨ kind = "gemini" then InvokeResult.err e
        else .err ("Unknown auditor kind: " ++ kind)) = .err e := if_pos hk
    simp [run_auditor_initial_review, this]
  · unfold run_auditor_initial_review
    by_cases hk : kind = "codex" ∨ kind = "gemini"
    · cases invoke with
      | ok raw => simp [hk]
      | err m => simp [hk]
    · simp [hk]

/-- C4 (counterexample): a timed-out external call inside the initial review
of a codex auditor produces a successful task result carrying a placeholder
review and the unchanged memo, instead of propagating the error out of the
round as the claim states. -/
theorem c4_invocation_error_swallowed :
    run_auditor_initial_review (fun _ => none) "codex"
      (.err "Command timed out after 3600.0 seconds: codex") "m" =
      .ok (reviewFailedText "Command timed out after 3600.0 seconds: codex", "m") ∧
    ∀ msg : String, (Except.ok (ε := String)
      (reviewFailedText "Command timed out after 3600.0 seconds: codex", "m")) ≠
      .error msg := by
  constructor
  · rfl
  · intro msg h
    exact Except.noConfusion h

/-- Witness for C4 at a concrete round: one failing task among successes
aborts the round with that failure, and a fully successful round returns all
results. -/
theorem c4_round_failure_policy_witness :
    gatherRound (([ "r1" ] : List String).map .ok ++ .error "boom" :: ([] : List String).map .ok) =
      .error "boom" ∧
    run_auditor_initial_review (fun _ => none) "gemini" (.err "x") "memo" =
      .ok (reviewFailedText "x", "memo") := by
  constructor
  · exact (c4_round_failure_policy (α := String) (fun _ => none) "gemini" (.err "x")
      "memo" "boom" ["r1"] [] []).1
  · exact (c4_round_failure_policy (α := String) (fun _ => none) "gemini" (.err "x")
      "memo" "x" [] [] []).2.2.1 (Or.inr rfl)

/-- C2: the cross-check round submits its per-agent peer-review tasks with a
keyword set that fails to bind against `run_reviewer_peer_round` — the
required parameters `round_index` and `max_rounds` are never supplied — so
every peer task raises `TypeError` instead of producing a latest review. -/
theorem c2_peer_round_call_fails_to_bind :
    kwargsCallBinds run_reviewer_peer_round_sig peer_round_call_kwargs = false ∧
    missingRequired run_reviewer_peer_round_sig peer_round_call_kwargs =
      ["round_index", "max_rounds"] ∧
    unexpectedKwargs run_reviewer_peer_round_sig peer_round_call_kwargs = [] := by
  decide

/-- C3: the arbiter step is invoked with the keyword `latest_reviews`, which
`run_arbiter_step` does not declare — `latest_reviews` is not among its
parameters at all — so every arbiter invocation raises `TypeError`, and the
latest (post-cross-check) reviews are not an input of `run_arbiter_step`. -/
theorem c3_arbiter_step_call_fails_to_bind :
    kwargsCallBinds run_arbiter_step_sig arbiter_step_call_kwargs = false ∧
    unexpectedKwargs run_arbiter_step_sig arbiter_step_call_kwargs =
      ["latest_reviews"] ∧
    run_arbiter_step_sig.params.contains "latest_reviews" = false ∧
    missingRequired run_arbiter_step_sig arbiter_step_call_kwargs = [] := by
  decide

/-- Structural invariant of the arbiter loop: every invocation it issues has
queries allowed, it appends exactly one QA entry per answered query,
`query_count` tracks the QA history length, at most `fuel` queries and
invocations are added, and the loop only reports budget exhaustion (`none`)
after answering exactly `fuel` queries. -/
theorem arbiterLoopGo_spec (oracle : Nat → Control) (answers : Nat → String)
    (roster : List String) (maxQ : Nat) :
    ∀ (fuel : Nat) (s : LoopState),
      ∃ cs ext,
        (arbiterLoopGo oracle answers roster maxQ fuel s).1.calls = s.calls ++ cs ∧
        (∀ c ∈ cs, c.allow_queries_flag = true) ∧
        (arbiterLoopGo oracle answers roster maxQ fuel s).1.qa = s.qa ++ ext ∧
        (arbiterLoopGo oracle answers roster maxQ fuel s).1.q = s.q + ext.length ∧
        ext.length ≤ fuel ∧ cs.length ≤ fuel ∧
        ((arbiterLoopGo oracle answers roster maxQ fuel s).2 = none →
          ext.length = fuel) := by
  intro fuel
  induction fuel with
  | zero =>
    intro s
    exact ⟨[], [], by simp [arbiterLoopGo], by simp, by simp [arbiterLoopGo],
      by simp [arbiterLoopGo], by simp, by simp, fun _ => rfl⟩
  | succ n ih =>
    intro s
    by_cases h1 : (oracle s.i).state = some "final"
    · refine ⟨[⟨true, s.q, maxQ⟩], [], ?_, ?_, ?_, ?_, ?_, ?_, ?_⟩
      · simp [arbiterLoopGo, h1]
      · simp
      · simp [arbiterLoopGo, h1]
      · simp [arbiterLoopGo, h1]
      · simp
      · simp only [List.length_cons, List.length_nil]
        omega
      · intro hn
        simp [arbiterLoopGo, h1] at hn
    · by_cases h2 : (oracle s.i).state = some "query"
      · by_cases h3 : getTarget (oracle s.i) = "" ∨ getQuestion (oracle s.i) = ""
        · refine ⟨[⟨true, s.q, maxQ⟩], [], ?_, ?_, ?_, ?_, ?_, ?_, ?_⟩
          · simp [arbiterLoopGo, h1, h2, h3]
          · simp
          · simp [arbiterLoopGo, h1, h2, h3]
          · simp [arbiterLoopGo, h1, h2, h3]
          · simp
          · simp only [List.length_cons, List.length_nil]
            omega
          · intro hn
            simp [arbiterLoopGo, h1, h2, h3] at hn
        · by_cases h4 : getTarget (oracle s.i) ∈ roster
          · have hgo : arbiterLoopGo oracle answers roster maxQ (n + 1) s =
                arbiterLoopGo oracle answers roster maxQ n
                  (LoopState.mk (s.q + 1) (s.i + 1)
                    (s.qa ++
                      [⟨getTarget (oracle s.i), getQuestion (oracle s.i),
                        answers s.q⟩])
                    (s.calls ++ [⟨true, s.q, maxQ⟩])) := by
              simp [arbiterLoopGo, h1, h2, h3, h4]
            obtain ⟨cs, ext, hcalls, hallow, hqa, hq, hl1, hl2, hnone⟩ := ih
              (LoopState.mk (s.q + 1) (s.i + 1)
                (s.qa ++
                  [⟨getTarget (oracle s.i), getQuestion (oracle s.i), answers s.q⟩])
                (s.calls ++ [⟨true, s.q, maxQ⟩]))
            refine ⟨⟨true, s.q, maxQ⟩ :: cs,
              ⟨getTarget (oracle s.i), getQuestion (oracle s.i), answers s.q⟩ :: ext,
              ?_, ?_, ?_, ?_, ?_, ?_, ?_⟩
            · rw [hgo, hcalls]
              simp
            · intro x hx
              rcases List.mem_cons.mp hx with hx | hx
              · rw [hx]
              · exact hallow x hx
            · rw [hgo, hqa]
              simp
            · rw [hgo, hq]
              simp only [List.length_cons]
              omega
            · simp only [List.length_cons]
              omega
            · simp only [List.length_cons]
              omega
            · intro hn
              rw [hgo] at hn
              have hxl := hnone hn
              simp only [List.length_cons, hxl]
          · refine ⟨[⟨true, s.q, maxQ⟩], [], ?_, ?_, ?_, ?_, ?_, ?_, ?_⟩
            · simp [arbiterLoopGo, h1, h2, h3, h4]
            · simp
            · simp [arbiterLoopGo, h1, h2, h3, h4]
            · simp [arbiterLoopGo, h1, h2, h3, h4]
            · simp
            · simp only [List.length_cons, List.length_nil]
              omega
            · intro hn
              simp [arbiterLoopGo, h1, h2, h3, h4] at hn
      · refine ⟨[⟨true, s.q, maxQ⟩], [], ?_, ?_, ?_, ?_, ?_, ?_, ?_⟩
        · simp [arbiterLoopGo, h1, h2]
        · simp
        · simp [arbiterLoopGo, h1, h2]
        · simp [arbiterLoopGo, h1, h2]
        · simp
        · simp only [List.length_cons, List.length_nil]
          omega
        · intro hn
          simp [arbiterLoopGo, h1, h2] at hn

/-- C5: for every configured budget Q, the multi-round arbiter phase invokes
the arbiter with queries allowed at most Q times, the QA history grows by
exactly one entry per answered query (so its length equals the query count,
never exceeds Q, and is monotonically non-decreasing across loop steps), and
when the budget is exhausted without a Final the arbiter is invoked exactly
once more with queries disallowed. -/
theorem c5_arbiter_budget_invariants (oracle : Nat → Control)
    (answers : Nat → String) (roster : List String) (maxQ : Nat) :
    ((arbiter_phase_multi oracle answers roster maxQ).st.calls.filter
      (fun c => c.allow_queries_flag)).length ≤ maxQ ∧
    (arbiter_phase_multi oracle answers roster maxQ).st.qa.length =
      (arbiter_phase_multi oracle answers roster maxQ).st.q ∧
    (arbiter_phase_multi oracle answers roster maxQ).st.qa.length ≤ maxQ ∧
    (∀ fuel s, ∃ ext,
      (arbiterLoopGo oracle answers roster maxQ fuel s).1.qa = s.qa ++ ext ∧
      (arbiterLoopGo oracle answers roster maxQ fuel s).1.q = s.q + ext.length) ∧
    ((arbiter_phase_multi oracle answers roster maxQ).forced = true →
      (arbiter_phase_multi oracle answers roster maxQ).st.calls.filter
        (fun c => !c.allow_queries_flag) = [⟨false, maxQ, maxQ⟩] ∧
      (arbiter_phase_multi oracle answers roster maxQ).st.qa.length = maxQ) ∧
    ((arbiter_phase_multi oracle answers roster maxQ).forced = false →
      (arbiter_phase_multi oracle answers roster maxQ).st.calls.filter
        (fun c => !c.allow_queries_flag) = []) := by
  have hmono : ∀ fuel s, ∃ ext,
      (arbiterLoopGo oracle answers roster maxQ fuel s).1.qa = s.qa ++ ext ∧
      (arbiterLoopGo oracle answers roster maxQ fuel s).1.q = s.q + ext.length := by
    intro fuel s
    obtain ⟨_, e2, _, _, h3, h4, _, _, _⟩ :=
      arbiterLoopGo_spec oracle answers roster maxQ fuel s
    exact ⟨e2, h3, h4⟩
  obtain ⟨cs, ext, hcalls, hallow, hqa, hq, hl1, hl2, hnone⟩ :=
    arbiterLoopGo_spec oracle answers roster maxQ maxQ ⟨0, 0, [], []⟩
  have hfa : cs.filter (fun c => c.allow_queries_flag) = cs :=
    List.filter_eq_self.mpr hallow
  have hfn : cs.filter (fun c => !c.allow_queries_flag) = [] := by
    refine List.filter_eq_nil_iff.mpr ?_
    intro x hx
    simp [hallow x hx]
  rcases hE : arbiterLoopGo oracle answers roster maxQ maxQ ⟨0, 0, [], []⟩
    with ⟨st, fmOpt⟩
  rw [hE] at hcalls hqa hq hnone
  simp only [List.nil_append, Nat.zero_add] at hcalls hqa hq
  unfold arbiter_phase_multi
  rw [hE]
  cases fmOpt with
  | some fm =>
    refine ⟨?_, ?_, ?_, hmono, ?_, ?_⟩
    · simp only [hcalls, hfa]
      exact hl2
    · simp only [hqa, hq, List.length_nil]
    · simp only [hqa]
      exact hl1
    · intro hforced
      simp at hforced
    · intro _
      simp only [hcalls, hfn]
  | none =>
    have hextQ : ext.length = maxQ := hnone rfl
    refine ⟨?_, ?_, ?_, hmono, ?_, ?_⟩
    · simp only [List.filter_append, hcalls, hfa]
      simp
      omega
    · simp only [hqa, hq, List.length_nil]
    · simp only [hqa]
      exact hl1
    · intro _
      refine ⟨?_, ?_⟩
      · simp only [List.filter_append, hcalls, hfn]
        simp
      · simp only [hqa]
        omega
    · intro hforced
      simp at hforced

/-- Witness for C5 at a concrete run: with budget 1 and an arbiter that
always asks a valid query, the loop answers exactly one query and then makes
exactly one forced disallowed invocation. -/
theorem c5_arbiter_budget_invariants_witness :
    ((arbiter_phase_multi (fun _ => ⟨some "query", none, some "R1", some "Q", "c"⟩)
        (fun _ => "A") ["R1"] 1).st.calls.filter
      (fun c => !c.allow_queries_flag)) = [⟨false, 1, 1⟩] ∧
    (arbiter_phase_multi (fun _ => ⟨some "query", none, some "R1", some "Q", "c"⟩)
        (fun _ => "A") ["R1"] 1).st.qa.length = 1 := by
  exact (c5_arbiter_budget_invariants
    (fun _ => ⟨some "query", none, some "R1", some "Q", "c"⟩)
    (fun _ => "A") ["R1"] 1).2.2.2.2.1 (by decide)

/-- C6: whenever the arbiter is invoked with queries disallowed, a non-Final
response is converted into a Final report embedding an explicit error
description ("## Arbiter Error ...") and the arbiter is never silently
re-invoked: single-shot mode issues exactly one invocation (with queries
disallowed), and the multi-round phase issues at most one disallowed
invocation. -/
theorem c6_disallowed_response_handling (oracle : Nat → Control) (c : Control)
    (answers : Nat → String) (roster : List String) (maxQ : Nat) :
    (arbiter_phase_single oracle).2 = [⟨false, 0, 0⟩] ∧
    ((oracle 0).state ≠ some "final" →
      (arbiter_phase_single oracle).1 = singleShotErrMsg (oracle 0).repr) ∧
    ((oracle 0).state = some "final" →
      (arbiter_phase_single oracle).1 = pyStrip (getFM (oracle 0))) ∧
    (c.state ≠ some "final" → forced_final_call c = budgetErrMsg c.repr) ∧
    (∃ rest, singleShotErrMsg c.repr = "## Arbiter Error\n\n" ++ rest) ∧
    (∃ rest, budgetErrMsg c.repr = "## Arbiter Error\n\n" ++ rest) ∧
    ((arbiter_phase_multi oracle answers roster maxQ).st.calls.filter
      (fun x => !x.allow_queries_flag)).length ≤ 1 := by
  refine ⟨rfl, ?_, ?_, ?_, ⟨_, rfl⟩, ⟨_, rfl⟩, ?_⟩
  · intro h
    simp [arbiter_phase_single, h]
  · intro h
    simp [arbiter_phase_single, h]
  · intro h
    simp [forced_final_call, h]
  · obtain ⟨cs, ext, hcalls, hallow, hqa, hq, hl1, hl2, hnone⟩ :=
      arbiterLoopGo_spec oracle answers roster maxQ maxQ ⟨0, 0, [], []⟩
    have hfn : cs.filter (fun x => !x.allow_queries_flag) = [] := by
      refine List.filter_eq_nil_iff.mpr ?_
      intro x hx
      simp [hallow x hx]
    rcases hE : arbiterLoopGo oracle answers roster maxQ maxQ ⟨0, 0, [], []⟩
      with ⟨st, fmOpt⟩
    rw [hE] at hcalls
    simp only [List.nil_append] at hcalls
    unfold arbiter_phase_multi
    rw [hE]
    cases fmOpt with
    | some fm =>
      simp only [hcalls, hfn]
      simp
    | none =>
      simp only [List.filter_append, hcalls, hfn]
      simp

/-- Witness for C6 at a concrete single-shot run: a query response in
single-shot mode yields the explicit error report, after exactly one
disallowed invocation. -/
theorem c6_disallowed_response_handling_witness :
    (arbiter_phase_single (fun _ => ⟨some "query", none, some "R1", some "Q", "c"⟩)).2 =
      [⟨false, 0, 0⟩] ∧
    (arbiter_phase_single (fun _ => ⟨some "query", none, some "R1", some "Q", "c"⟩)).1 =
      singleShotErrMsg "c" := by
  have h := c6_disallowed_response_handling
    (fun _ => ⟨some "query", none, some "R1", some "Q", "c"⟩)
    ⟨some "query", none, some "R1", some "Q", "c"⟩ (fun _ => "A") [] 0
  exact ⟨h.1, h.2.1 (by decide)⟩

/-- C1 (amended): every destructive cleanup site is marker-gated and the
workdir root is boundary-checked — a run directory is recursively removed
only when its marker file is present at the moment of removal; when the
marker is absent, the pre-run check raises and leaves the directory
untouched, while the end-of-run and atexit cleanups leave it untouched with
a warning (without raising); and a workdir root resolving to the repo root
itself or outside it makes setup fail before any filesystem action. -/
theorem c1_marker_gated_cleanup (fs : FS) (candidate repoRootReal baseArg runDir : String) :
    (∀ fsR a, end_of_run_cleanup fs runDir = .ok (fsR, a) →
      a = CleanupAction.removed →
      fileExists fs (markerPath runDir) = true ∧
      fsR = cleanup_run_workdir fs runDir) ∧
    (isDir fs runDir = true → fileExists fs (markerPath runDir) = false →
      end_of_run_cleanup fs runDir = .ok (fs, .leftInPlaceWarned)) ∧
    (fileExists fs (markerPath runDir) = false →
      atexit_cleanup_one fs runDir = fs) ∧
    (boundary_violation candidate repoRootReal = true →
      pipeline_setup fs candidate repoRootReal baseArg runDir =
        (fs, .error (boundaryErrMsg repoRootReal baseArg))) ∧
    (boundary_violation candidate repoRootReal = false →
      isDir (mkdirP fs candidate) runDir = true →
      fileExists (mkdirP fs candidate) (markerPath runDir) = false →
      pipeline_setup fs candidate repoRootReal baseArg runDir =
        (mkdirP fs candidate, .error (refuseMarkerMsg runDir))) := by
  refine ⟨?_, ?_, ?_, ?_, ?_⟩
  · intro fsR a hok ha
    subst ha
    unfold end_of_run_cleanup at hok
    by_cases hd : isDir fs runDir
    · by_cases hm : fileExists fs (markerPath runDir)
      · refine ⟨hm, ?_⟩
        simp [hd, hm] at hok
        exact hok.symm
      · simp [hd, hm] at hok
    · simp [hd] at hok
  · intro hd hm
    simp [end_of_run_cleanup, hd, hm]
  · intro hm
    simp [atexit_cleanup_one, hm]
  · intro hb
    simp [pipeline_setup, hb]
  · intro hb hd hm
    simp [pipeline_setup, hb, hd, hm]

/-- C1 (counterexample): at the end of a run, a run directory that exists
without its marker file is left in place with a warning — the cleanup
returns normally with the filesystem unchanged instead of raising as the
claim states. -/
theorem c1_end_cleanup_missing_marker_no_raise :
    end_of_run_cleanup ⟨["/repo", "/repo/w", "/repo/w/run-1"], []⟩ "/repo/w/run-1" =
      .ok (⟨["/repo", "/repo/w", "/repo/w/run-1"], []⟩, .leftInPlaceWarned) ∧
    CleanupAction.leftInPlaceWarned ≠ CleanupAction.removed := by
  constructor
  · rfl
  · decide

/-- Witness for C1 at concrete states: a marker-less leftover run directory
makes setup raise with the directory untouched, and a workdir root equal to
the repo root is rejected before any filesystem action. -/
theorem c1_marker_gated_cleanup_witness :
    pipeline_setup ⟨["/repo", "/repo/w", "/repo/w/run-1"], []⟩
      "/repo/w" "/repo" "w" "/repo/w/run-1" =
      (⟨["/repo", "/repo/w", "/repo/w/run-1"], []⟩,
       .error (refuseMarkerMsg "/repo/w/run-1")) ∧
    pipeline_setup ⟨["/repo"], []⟩ "/repo" "/repo" "." "/repo/run-1" =
      (⟨["/repo"], []⟩, .error (boundaryErrMsg "/repo" ".")) := by
  constructor
  · have h := (c1_marker_gated_cleanup ⟨["/repo", "/repo/w", "/repo/w/run-1"], []⟩
      "/repo/w" "/repo" "w" "/repo/w/run-1").2.2.2.2 (by decide) (by decide) (by decide)
    rw [h]
    rfl
  · exact (c1_marker_gated_cleanup ⟨["/repo"], []⟩
      "/repo" "/repo" "." "/repo/run-1").2.2.2.1 (by decide)

/-- C10: with a Codex arbiter, every reviewer configuration equal to
`(gpt-5.1-codex, low)` is removed from the reviewer roster, one diagnostic
is emitted per removed occurrence, every other configuration is kept, and
with a non-Codex arbiter family the configurations are untouched — so no
reviewer with the reserved configuration ever enters the review rounds. -/
theorem c10_reserved_codex_arbiter_config (codex_configs : List (String × String)) :
    reservedCodexArbConfig ∉ (codex_reviewer_configs "codex" codex_configs).1 ∧
    (∀ cfg, cfg ∈ codex_configs → cfg ≠ reservedCodexArbConfig →
      cfg ∈ (codex_reviewer_configs "codex" codex_configs).1) ∧
    (∀ cfg, cfg ∈ (codex_reviewer_configs "codex" codex_configs).1 →
      cfg ∈ codex_configs ∧ cfg ≠ reservedCodexArbConfig) ∧
    (codex_reviewer_configs "codex" codex_configs).2 =
      (codex_configs.filter (fun cfg => cfg == reservedCodexArbConfig)).length ∧
    (∀ fam, fam ≠ "codex" →
      codex_reviewer_configs fam codex_configs = (codex_configs, 0)) := by
  refine ⟨?_, ?_, ?_, ?_, ?_⟩
  · intro hmem
    simp only [codex_reviewer_configs, if_pos rfl] at hmem
    rcases List.mem_filter.mp hmem with ⟨_, hp⟩
    simp [reservedCodexArbConfig] at hp
  · intro cfg hin hne
    simp only [codex_reviewer_configs, if_pos rfl]
    refine List.mem_filter.mpr ⟨hin, ?_⟩
    obtain ⟨m, e⟩ := cfg
    simp only [reservedCodexArbConfig, ne_eq, Prod.mk.injEq, not_and] at hne
    by_cases hm : m = "gpt-5.1-codex"
    · subst hm
      simp [hne rfl]
    · simp [hm]
  · intro cfg hmem
    simp only [codex_reviewer_configs, if_pos rfl] at hmem
    rcases List.mem_filter.mp hmem with ⟨hin, hp⟩
    refine ⟨hin, ?_⟩
    intro hEq
    subst hEq
    simp [reservedCodexArbConfig] at hp
  · simp only [codex_reviewer_configs, if_pos rfl]
    congr 1
  · intro fam hfam
    simp [codex_reviewer_configs, hfam]

/-- Witness for C10 at a concrete roster: the reserved configuration is
dropped (with one diagnostic), the other configurations survive, and a
Gemini arbiter leaves the list unchanged. -/
theorem c10_reserved_codex_arbiter_config_witness :
    ("gpt-5.1-codex", "low") ∉
      (codex_reviewer_configs "codex"
        [("gpt-5.1", "high"), ("gpt-5.1-codex", "low")]).1 ∧
    codex_reviewer_configs "gemini"
      [("gpt-5.1", "high"), ("gpt-5.1-codex", "low")] =
      ([("gpt-5.1", "high"), ("gpt-5.1-codex", "low")], 0) := by
  constructor
  · exact (c10_reserved_codex_arbiter_config
      [("gpt-5.1", "high"), ("gpt-5.1-codex", "low")]).1
  · exact (c10_reserved_codex_arbiter_config
      [("gpt-5.1", "high"), ("gpt-5.1-codex", "low")]).2.2.2.2 "gemini" (by decide)

end AgentMultiCr

